import Mathlib

/-!
Verification of the EduLearn learning platform's frontend components and of
its Progress Monitoring & Streak Analytics (PMSAS) core, against the
repository's natural-language specification.

The frontend (React) components are embedded shallowly: each component's
render logic becomes a pure Lean function from its props/context state to a
render value.  The PMSAS backend (Streak Tracker, Badge Engine) is not part
of the repository snapshot; where a claim depends on it, the operation is
modelled from the specification text and marked as such in its doc comment.
-/

namespace EduLearn

/-! ## Authentication context (`src/frontend/src/context/AuthContext.jsx`)

The `AuthProvider` holds `user` (an object or `null`) and derives
`isAuthenticated = !!user`, `isAdmin = user?.role === 'admin'`,
`isTeacher = user?.role === 'teacher'`, `isStudent = user?.role === 'student'`.
-/

/-- A logged-in user record as stored in the auth context; only the `role`
field is relevant to the derived flags. -/
structure AuthUser where
  role : String
  deriving Repr, DecidableEq

/-- JS `user?.role`: optional-chained role access (`none` = `undefined`). -/
def optRole (user : Option AuthUser) : Option String :=
  user.map (·.role)

/-- `isAuthenticated: !!user` from the AuthContext provider value. -/
def isAuthenticated (user : Option AuthUser) : Bool :=
  user.isSome

/-- `isAdmin: user?.role === 'admin'` from the AuthContext provider value. -/
def isAdmin (user : Option AuthUser) : Bool :=
  optRole user == some "admin"

/-- `isTeacher: user?.role === 'teacher'` from the AuthContext provider value. -/
def isTeacher (user : Option AuthUser) : Bool :=
  optRole user == some "teacher"

/-- `isStudent: user?.role === 'student'` from the AuthContext provider value. -/
def isStudent (user : Option AuthUser) : Bool :=
  optRole user == some "student"

/-! ## ProtectedRoute (`src/frontend/src/components/common/ProtectedRoute.jsx`)

Render logic: while `loading`, show the loading screen; if not authenticated,
`<Navigate to="/login" />`; if a `requiredRole` is given and the user's role
differs, `<Navigate to="/dashboard" />`; otherwise render the children.
-/

/-- The four observationally distinct render results of `ProtectedRoute`. -/
inductive PRRender where
  | loadingScreen
  | redirectLogin
  | redirectDashboard
  | children
  deriving Repr, DecidableEq

/-- `ProtectedRoute({ children, requiredRole })` render function.
`requiredRole = none` models the prop being omitted (undefined, falsy). -/
def protectedRoute (loading : Bool) (user : Option AuthUser)
    (requiredRole : Option String) : PRRender :=
  if loading then .loadingScreen
  else if !(isAuthenticated user) then .redirectLogin
  else
    match requiredRole with
    | some r => if optRole user == some r then .children else .redirectDashboard
    | none => .children

/-! ## TeacherAnalytics (`TeacherAnalytics.jsx`, PMSAS dashboard for teachers)

Render logic: `if (!isTeacher && !isAdmin)` show the Access Denied view;
else while loading show the loading view; else show the dashboard populated
with the fetched teacher-dashboard object and at-risk student list.
-/

/-- Teacher dashboard payload fetched from `GET /pmsas/dashboard/teacher`. -/
structure TeacherDashboardData where
  total_students : Nat
  active_today : Nat
  active_today_percent : Nat
  at_risk_count : Nat
  avg_streak : Nat
  deriving Repr, DecidableEq

/-- One row of `GET /pmsas/dashboard/at-risk`. -/
structure AtRiskStudent where
  user_id : String
  current_streak : Nat
  last_activity : Option String
  deriving Repr, DecidableEq

/-- The observationally distinct render results of `TeacherAnalytics`; only
`dashboardView` carries teacher-dashboard or at-risk data. -/
inductive TARender where
  | accessDenied
  | loadingView
  | dashboardView (dashboard : TeacherDashboardData) (atRisk : List AtRiskStudent)
  deriving Repr, DecidableEq

/-- `TeacherAnalytics` render function over the auth context user, the
loading flag, and the fetched data. -/
def teacherAnalytics (user : Option AuthUser) (loading : Bool)
    (dashboard : TeacherDashboardData) (atRisk : List AtRiskStudent) : TARender :=
  if !(isTeacher user) && !(isAdmin user) then .accessDenied
  else if loading then .loadingView
  else .dashboardView dashboard atRisk

/-! ## Leaderboard rank sections

`Leaderboard.jsx`: the "Your Position" section renders iff
`myRank && !leaderboard.find(e => e.user_id === user?.id)`, showing
`#{myRank.rank}`.  `ProgressDashboard.jsx` (leaderboard tab): the
"Your Position" line renders iff
`leaderboard?.user_rank && leaderboard.user_rank > 10`, showing
`#{leaderboard.user_rank} of {leaderboard.total_participants}`.
-/

/-- One fetched leaderboard entry, as consumed by the components. -/
structure LBEntry where
  user_id : String
  rank : Nat
  user_name : String
  deriving Repr, DecidableEq

/-- The `my_rank` payload of `GET /pmsas/leaderboard`. -/
structure MyRankInfo where
  rank : Nat
  user_name : String
  deriving Repr, DecidableEq

/-- JS `leaderboard.find(e => e.user_id === user?.id)` truthiness: whether
the current user appears among the fetched entries (`===` against
`undefined` is false when the user is null). -/
def appearsIn (entries : List LBEntry) (userId : Option String) : Bool :=
  match userId with
  | some uid => entries.any (fun e => e.user_id == uid)
  | none => false

/-- The my-rank section of `Leaderboard.jsx`: `some r` means the section is
rendered showing position `r`; `none` means it is hidden. -/
def leaderboardMyRankSection (myRank : Option MyRankInfo) (entries : List LBEntry)
    (userId : Option String) : Option Nat :=
  match myRank with
  | some m => if appearsIn entries userId then none else some m.rank
  | none => none

/-- The your-position line of the `ProgressDashboard` streak leaderboard:
`some r` means it is rendered showing position `r`.  The JS guard is
`user_rank && user_rank > 10` (truthiness of the number, then the bound). -/
def dashboardYourPosition (userRank : Option Nat) : Option Nat :=
  match userRank with
  | some r => if r ≠ 0 ∧ 10 < r then some r else none
  | none => none

/-! ## ProgressDashboard overview (`ProgressDashboard.jsx`, overview tab)

The "Activity This Month" calendar renders 30 cells with
`[...Array(30)].map((_, i) => <div className={Math.random() > 0.5 ? 'active' : ''} />)`,
i.e. each cell's active mark is a fresh pseudo-random draw, taking no input
from the loaded summary or analytics.  The recent-badges card shows
`badges.slice(0, 4)` and the top-streakers card `entries.slice(0, 5)`.
-/

/-- The 30-cell activity calendar: cell `i` is marked active iff the `i`-th
`Math.random()` draw exceeds `0.5`.  The random stream is made explicit as a
function argument; the loaded activity data is not consulted at all. -/
def activityCalendar (randoms : Nat → ℚ) : List Bool :=
  (List.range 30).map (fun i => decide ((1 : ℚ) / 2 < randoms i))

/-- The data-derived pieces of the overview tab render. -/
structure OverviewRender where
  calendar : List Bool
  recentBadges : List String
  topStreakers : List (String × Nat)
  deriving Repr, DecidableEq

/-- Overview tab render over the loaded badge names, top-streaker entries,
and the ambient `Math.random()` stream consumed by the calendar. -/
def renderOverview (badges : List String) (streakers : List (String × Nat))
    (randoms : Nat → ℚ) : OverviewRender :=
  { calendar := activityCalendar randoms
    recentBadges := badges.take 4
    topStreakers := streakers.take 5 }

/-! ## pmsasService (`src/frontend/src/services/pmsasService.js`, embedded at
`Leaderboard.jsx` lines 145–209)

The service object literal defines exactly these methods. -/

/-- The method names defined on the `pmsasService` object literal. -/
def pmsasServiceMethods : List String :=
  ["logActivity", "getStreak", "getAllBadges", "getMyBadges", "getLeaderboard",
   "getPoints", "getMyAnalytics", "getSummary", "getTeacherDashboard",
   "getAtRiskStudents"]

/-- Streak view used by `StreakCard.jsx`. -/
structure StreakView where
  current_streak : Nat
  longest_streak : Nat
  total_active_days : Nat
  freeze_available : Nat
  streak_at_risk : Bool
  deriving Repr, DecidableEq

/-- Outcome of `handleUseFreeze` in `StreakCard.jsx`: either the streak view
is replaced and the success toast shown, or the catch block's message is
shown. -/
inductive FreezeOutcome where
  | applied (streak : StreakView)
  | errorMessage (msg : String)
  deriving Repr, DecidableEq

/-- `handleUseFreeze` (after the confirm dialog): it evaluates
`pmsasService.useStreakFreeze` — `undefined` when the name is not among the
service's methods, in which case the call throws `TypeError` and the catch
block shows `err.response?.data?.error || 'Failed to apply freeze'`, which is
the fallback string since a `TypeError` has no `response` field.  When the
method exists, the backend result is applied or its error message shown. -/
def handleUseFreeze (backend : StreakView → Except String StreakView)
    (current : StreakView) : FreezeOutcome :=
  if pmsasServiceMethods.contains "useStreakFreeze" then
    match backend current with
    | .ok s => .applied s
    | .error e => .errorMessage e
  else .errorMessage "Failed to apply freeze"

/-! ## Leaderboard request construction

`pmsasService.getLeaderboard = async (type = 'streak', limit = 10) =>
  api.get('/pmsas/leaderboard', { params: { type, limit } })`.

`Leaderboard.jsx`'s `fetchLeaderboard` invokes it with a single object
argument `{ period, limit: 10, course_id: courseId }`, which JS binds to the
positional `type` parameter, leaving `limit` at its default. -/

/-- A JavaScript value as far as the leaderboard request plumbing observes
it: `jsUndefined` models an absent argument (so the default applies). -/
inductive JSVal where
  | jsUndefined
  | str (s : String)
  | num (n : Int)
  | obj (fields : List (String × JSVal))
  deriving Repr

/-- Whether a value is `undefined` (the discriminator JS default-parameter
binding uses). -/
def JSVal.isUndefined : JSVal → Bool
  | .jsUndefined => true
  | _ => false

/-- `getLeaderboard(type = 'streak', limit = 10)`: the query params of the
request it issues.  Default parameter values apply when an argument is
`undefined`. -/
def getLeaderboardParams (typeArg limitArg : JSVal) : List (String × JSVal) :=
  let type := if typeArg.isUndefined then .str "streak" else typeArg
  let limit := if limitArg.isUndefined then .num 10 else limitArg
  [("type", type), ("limit", limit)]

/-- `fetchLeaderboard` in `Leaderboard.jsx`: calls `getLeaderboard` with the
single options-object argument `{ period, limit: 10, course_id: courseId }`;
the second positional parameter receives `undefined`. -/
def fetchLeaderboardParams (period : String) (courseId : JSVal) :
    List (String × JSVal) :=
  getLeaderboardParams
    (.obj [("period", .str period), ("limit", .num 10), ("course_id", courseId)])
    .jsUndefined

/-! ## PMSAS core: Streak Tracker and Badge Engine

The backend implementing these operations (`backend/`, reached through
`POST /pmsas/activity` etc.) is not among the repository files provided;
only its frontend callers are.  The operations below are therefore modelled
from the specification (§4.1 Streak Tracker, §4.3 Badge Engine, §3 data
model), with calendar days as natural numbers under the platform-fixed
timezone policy.
-/

/-- Modelled from the spec: `StreakState`, one per user (§3) — the fields the
Streak Tracker owns.  `last_active_date = none` means no activity ever. -/
structure StreakState where
  current_streak : Nat
  longest_streak : Nat
  last_active_date : Option Nat
  freeze_available : Nat
  freeze_used_dates : List Nat
  total_active_days : Nat
  deriving Repr, DecidableEq

/-- Modelled from the spec: the freshly-registered user's streak state. -/
def StreakState.init (freezes : Nat) : StreakState :=
  ⟨0, 0, none, freezes, [], 0⟩

/-- Modelled from the spec: `streak_at_risk` is derived — true when
`last_active_date < today` and `current_streak > 0` (§4.1), except when
today is already marked frozen (a freeze "clears `streak_at_risk` for the
day"). -/
def streakAtRisk (today : Nat) (s : StreakState) : Bool :=
  (match s.last_active_date with
   | some l => decide (l < today)
   | none => false) &&
  decide (0 < s.current_streak) && !(s.freeze_used_dates.contains today)

/-- Modelled from the spec: `recordActivity(user_id, timestamp)` (§4.1) with
`d = date(timestamp)`.  Same-day events are no-ops; the next day extends the
streak; a gap is continuous when every skipped day is covered by an already
marked frozen date or a consumed freeze token, and otherwise resets
`current_streak` to 1; `longest_streak = max(longest_streak, current_streak)`
after every update.  An out-of-order day (`d < last_active_date`) cannot
occur in the append-only, per-user-ordered activity log and is treated as a
no-op. -/
def recordActivity (d : Nat) (s : StreakState) : StreakState :=
  match s.last_active_date with
  | none =>
      { s with current_streak := 1, longest_streak := max s.longest_streak 1,
               last_active_date := some d,
               total_active_days := s.total_active_days + 1 }
  | some last =>
      if d ≤ last then s
      else if d = last + 1 then
        { s with current_streak := s.current_streak + 1,
                 longest_streak := max s.longest_streak (s.current_streak + 1),
                 last_active_date := some d,
                 total_active_days := s.total_active_days + 1 }
      else
        let skipped := (List.range (d - last - 1)).map (fun i => last + 1 + i)
        let uncovered := skipped.filter (fun x => !(s.freeze_used_dates.contains x))
        if uncovered.length ≤ s.freeze_available then
          { s with current_streak := s.current_streak + 1,
                   longest_streak := max s.longest_streak (s.current_streak + 1),
                   last_active_date := some d,
                   total_active_days := s.total_active_days + 1,
                   freeze_available := s.freeze_available - uncovered.length,
                   freeze_used_dates := s.freeze_used_dates ++ uncovered }
        else
          { s with current_streak := 1,
                   longest_streak := max s.longest_streak 1,
                   last_active_date := some d,
                   total_active_days := s.total_active_days + 1 }

/-- Modelled from the spec: `useStreakFreeze(user_id)` (§4.1) — fails with
`NoFreezeAvailable` when `freeze_available == 0`; otherwise, when the streak
is at risk, decrements `freeze_available` and marks today as frozen; when
not at risk it is a no-op success. -/
def useStreakFreeze (today : Nat) (s : StreakState) : Except String StreakState :=
  if s.freeze_available = 0 then .error "NoFreezeAvailable"
  else if streakAtRisk today s then
    .ok { s with freeze_available := s.freeze_available - 1,
                 freeze_used_dates := s.freeze_used_dates ++ [today] }
  else .ok s

/-- Modelled from the spec: a `BadgeDefinition` of the static catalog (§3),
its `criteria` a predicate over the user's streak state and point total. -/
structure BadgeDefinition where
  badge_type : String
  points_value : Nat
  criteria : StreakState → Nat → Bool

/-- Modelled from the spec: the per-user state the PMSAS pipeline mutates —
the streak state, the points ledger total, and the earned-badge types (one
`EarnedBadge` row per entry). -/
structure SysState where
  streak : StreakState
  total_points : Nat
  earned : List String

/-- Modelled from the spec: `evaluateBadges(user_id)` (§4.3) — for each
catalog badge not yet earned, evaluate its criteria against current state;
if satisfied, insert the `EarnedBadge` and award `points_value` through the
points engine.  Never revokes a badge. -/
def evaluateBadges : List BadgeDefinition → SysState → SysState
  | [], s => s
  | b :: rest, s =>
      if b.badge_type ∈ s.earned then evaluateBadges rest s
      else if b.criteria s.streak s.total_points then
        evaluateBadges rest
          { s with earned := s.earned ++ [b.badge_type],
                   total_points := s.total_points + b.points_value }
      else evaluateBadges rest s

/-- The operations of the PMSAS core that touch per-user state (§6): an
activity recording on a calendar day, a freeze use on a calendar day, and a
badge evaluation pass. -/
inductive PMSASOp where
  | record (day : Nat)
  | freeze (today : Nat)
  | evalBadges

/-- One operation applied to the per-user state: a failed freeze leaves the
state untouched (the caller sees the `NoFreezeAvailable` error). -/
def applyOp (catalog : List BadgeDefinition) : PMSASOp → SysState → SysState
  | .record d, s => { s with streak := recordActivity d s.streak }
  | .freeze today, s =>
      match useStreakFreeze today s.streak with
      | .ok st => { s with streak := st }
      | .error _ => s
  | .evalBadges, s => evaluateBadges catalog s

/-- A sequence of operations applied left to right. -/
def applyOps (catalog : List BadgeDefinition) (ops : List PMSASOp)
    (s : SysState) : SysState :=
  ops.foldl (fun st op => applyOp catalog op st) s

end EduLearn

namespace EduLearn

/-! ## Claim theorems for the auth layer -/

/-- C9: in every auth context state, at most one of `isAdmin`, `isTeacher`,
`isStudent` is true; exactly one is true when the user's role is `admin`,
`teacher` or `student`; all three are false when `user` is null; and
`isAuthenticated` holds iff `user` is non-null. -/
theorem authContext_role_flags_exclusive (user : Option AuthUser) :
    (¬(isAdmin user = true ∧ isTeacher user = true)) ∧
    (¬(isAdmin user = true ∧ isStudent user = true)) ∧
    (¬(isTeacher user = true ∧ isStudent user = true)) ∧
    (user = none → isAdmin user = false ∧ isTeacher user = false ∧ isStudent user = false) ∧
    (∀ u, user = some u →
      (u.role = "admin" → isAdmin user = true ∧ isTeacher user = false ∧ isStudent user = false) ∧
      (u.role = "teacher" → isAdmin user = false ∧ isTeacher user = true ∧ isStudent user = false) ∧
      (u.role = "student" → isAdmin user = false ∧ isTeacher user = false ∧ isStudent user = true)) ∧
    (isAuthenticated user = true ↔ user ≠ none) := by
  refine ⟨?_, ?_, ?_, ?_, ?_, ?_⟩
  · rintro ⟨h1, h2⟩
    simp only [isAdmin, isTeacher, optRole, beq_iff_eq, Option.map_eq_some'] at h1 h2
    obtain ⟨u, hu, hr⟩ := h1
    obtain ⟨u', hu', hr'⟩ := h2
    rw [hu] at hu'
    cases hu'
    rw [hr] at hr'
    exact absurd hr' (by decide)
  · rintro ⟨h1, h2⟩
    simp only [isAdmin, isStudent, optRole, beq_iff_eq, Option.map_eq_some'] at h1 h2
    obtain ⟨u, hu, hr⟩ := h1
    obtain ⟨u', hu', hr'⟩ := h2
    rw [hu] at hu'
    cases hu'
    rw [hr] at hr'
    exact absurd hr' (by decide)
  · rintro ⟨h1, h2⟩
    simp only [isTeacher, isStudent, optRole, beq_iff_eq, Option.map_eq_some'] at h1 h2
    obtain ⟨u, hu, hr⟩ := h1
    obtain ⟨u', hu', hr'⟩ := h2
    rw [hu] at hu'
    cases hu'
    rw [hr] at hr'
    exact absurd hr' (by decide)
  · rintro rfl
    refine ⟨rfl, rfl, rfl⟩
  · rintro u rfl
    refine ⟨?_, ?_, ?_⟩ <;> intro hrole <;>
      refine ⟨?_, ?_, ?_⟩ <;>
      simp [isAdmin, isTeacher, isStudent, optRole, hrole]
  · cases user <;> simp [isAuthenticated]

/-- Witness for C9: the theorem applied to the concrete auth state of an
admin user. -/
theorem authContext_role_flags_exclusive_witness :
    isAdmin (some ⟨"admin"⟩) = true ∧ isTeacher (some ⟨"admin"⟩) = false ∧
    isStudent (some ⟨"admin"⟩) = false ∧ isAuthenticated (some ⟨"admin"⟩) = true := by
  have h := authContext_role_flags_exclusive (some ⟨"admin"⟩)
  obtain ⟨-, -, -, -, hsome, hauth⟩ := h
  obtain ⟨hadmin, -, -⟩ := hsome ⟨"admin"⟩ rfl
  obtain ⟨h1, h2, h3⟩ := hadmin rfl
  exact ⟨h1, h2, h3, hauth.mpr (by simp)⟩

/-- C10: once `loading` is false, `ProtectedRoute` redirects to `/login`
(never rendering the children) when the user is not authenticated; redirects
to `/dashboard` when a required role is specified and the user's role
differs; and renders the children exactly when the user is authenticated and
any role requirement is met. -/
theorem protectedRoute_access_control (loading : Bool) (user : Option AuthUser)
    (requiredRole : Option String) (h : loading = false) :
    (isAuthenticated user = false →
      protectedRoute loading user requiredRole = .redirectLogin ∧
      protectedRoute loading user requiredRole ≠ .children) ∧
    (∀ r, isAuthenticated user = true → requiredRole = some r → optRole user ≠ some r →
      protectedRoute loading user requiredRole = .redirectDashboard) ∧
    (protectedRoute loading user requiredRole = .children ↔
      isAuthenticated user = true ∧ (∀ r, requiredRole = some r → optRole user = some r)) := by
  subst h
  refine ⟨?_, ?_, ?_⟩
  · intro hna
    constructor
    · simp [protectedRoute, hna]
    · simp [protectedRoute, hna]
  · intro r hauth hreq hne
    subst hreq
    simp only [protectedRoute, hauth, Bool.not_true, Bool.false_eq_true, if_false,
      if_true]
    simp only [beq_iff_eq]
    rw [if_neg hne]
  · constructor
    · intro hc
      by_cases hauth : isAuthenticated user = true
      · refine ⟨hauth, ?_⟩
        rintro r rfl
        simp only [protectedRoute, hauth, Bool.not_true, Bool.false_eq_true, if_false,
          if_true, beq_iff_eq] at hc
        by_contra hne
        rw [if_neg hne] at hc
        exact absurd hc (by simp)
      · rw [Bool.not_eq_true] at hauth
        simp [protectedRoute, hauth] at hc
    · rintro ⟨hauth, hrole⟩
      cases requiredRole with
      | none => simp [protectedRoute, hauth]
      | some r =>
          have := hrole r rfl
          simp [protectedRoute, hauth, this]

/-- Witness for C10: a student visiting the admin-only `/admin/users` route
(`requiredRole="admin"` in `App.jsx`) is redirected to the dashboard, and an
unauthenticated visitor is redirected to login. -/
theorem protectedRoute_access_control_witness :
    protectedRoute false (some ⟨"student"⟩) (some "admin") = .redirectDashboard ∧
    protectedRoute false none (some "admin") = .redirectLogin := by
  constructor
  · exact (protectedRoute_access_control false (some ⟨"student"⟩) (some "admin") rfl).2.1
      "admin" (by decide) rfl (by decide)
  · exact ((protectedRoute_access_control false none (some "admin") rfl).1 (by decide)).1

/-- C7: an authenticated user whose role is neither `teacher` nor `admin`
gets the Access Denied view from `TeacherAnalytics` (which carries no
teacher-dashboard or at-risk data), and the dashboard data is rendered only
when the user's role is `teacher` or `admin`. -/
theorem teacherAnalytics_role_gate (user : Option AuthUser) (loading : Bool)
    (dashboard : TeacherDashboardData) (atRisk : List AtRiskStudent) :
    (∀ u, user = some u → u.role ≠ "teacher" → u.role ≠ "admin" →
      teacherAnalytics user loading dashboard atRisk = .accessDenied) ∧
    (∀ d a, teacherAnalytics user loading dashboard atRisk = .dashboardView d a →
      isTeacher user = true ∨ isAdmin user = true) := by
  constructor
  · rintro u rfl hnt hna
    simp [teacherAnalytics, isTeacher, isAdmin, optRole, hnt, hna]
  · intro d a hview
    by_cases ht : isTeacher user = true
    · exact Or.inl ht
    · by_cases ha : isAdmin user = true
      · exact Or.inr ha
      · rw [Bool.not_eq_true] at ht ha
        simp [teacherAnalytics, ht, ha] at hview

/-- Witness for C7: a student sees Access Denied on the analytics views. -/
theorem teacherAnalytics_role_gate_witness :
    teacherAnalytics (some ⟨"student"⟩) false
      ⟨0, 0, 0, 0, 0⟩ [] = .accessDenied := by
  exact (teacherAnalytics_role_gate (some ⟨"student"⟩) false ⟨0, 0, 0, 0, 0⟩ []).1
    ⟨"student"⟩ rfl (by decide) (by decide)

/-! ## Claim theorems for the leaderboard views and overview -/

/-- C8: when the current user is absent from the fetched entries and
`my_rank` is present, `Leaderboard.jsx` shows that user's position; when the
user is among the entries, no separate position row appears.  The
`ProgressDashboard` streak leaderboard shows the position whenever
`user_rank > 10`, and hides it when the user is among the displayed entries,
given that a user among the top-10 entries carries a rank of at most 10 (the
rank field is their 1-based position in the full ordering). -/
theorem rank_sections_display (myRank : Option MyRankInfo)
    (entries entriesD : List LBEntry) (userId : Option String)
    (userRank : Option Nat)
    (hconsist : appearsIn entriesD userId = true → ∀ r, userRank = some r → r ≤ 10) :
    (∀ m, appearsIn entries userId = false → myRank = some m →
      leaderboardMyRankSection myRank entries userId = some m.rank) ∧
    (appearsIn entries userId = true →
      leaderboardMyRankSection myRank entries userId = none) ∧
    (∀ r, userRank = some r → 10 < r → dashboardYourPosition userRank = some r) ∧
    (appearsIn entriesD userId = true → dashboardYourPosition userRank = none) := by
  refine ⟨?_, ?_, ?_, ?_⟩
  · rintro m habs rfl
    simp [leaderboardMyRankSection, habs]
  · intro hin
    cases myRank with
    | none => rfl
    | some m => simp [leaderboardMyRankSection, hin]
  · rintro r rfl hr
    have hr0 : r ≠ 0 := by omega
    simp [dashboardYourPosition, hr, hr0]
  · intro hin
    cases hrk : userRank with
    | none => rfl
    | some r =>
        have hle := hconsist hin r hrk
        have : ¬(r ≠ 0 ∧ 10 < r) := by omega
        simp [dashboardYourPosition, this]

/-- Witness for C8: a user ranked 11th who is not among the fetched top-10
entries gets a position row in both components. -/
theorem rank_sections_display_witness :
    leaderboardMyRankSection (some ⟨11, "Me"⟩) [⟨"u1", 1, "A"⟩] (some "me") = some 11 ∧
    dashboardYourPosition (some 11) = some 11 := by
  have h := rank_sections_display (some ⟨11, "Me"⟩) [⟨"u1", 1, "A"⟩] [⟨"u1", 1, "A"⟩]
    (some "me") (some 11) (by intro hin; simp [appearsIn] at hin)
  exact ⟨h.1 ⟨11, "Me"⟩ (by decide) rfl, h.2.2.1 11 rfl (by decide)⟩

/-- C6 (refuting the claim on the code): two renders of the overview tab
over the same loaded data differ, because each of the 30 calendar cells is
marked active by a fresh `Math.random()` draw rather than by the user's
trailing-30-day activity data. -/
theorem overview_render_nondeterministic :
    renderOverview [] [] (fun _ => (3 : ℚ) / 4) ≠
      renderOverview [] [] (fun _ => (1 : ℚ) / 4) := by
  intro h
  have hc : activityCalendar (fun _ => (3 : ℚ) / 4) =
      activityCalendar (fun _ => (1 : ℚ) / 4) := congrArg OverviewRender.calendar h
  have h34 : decide ((1 : ℚ) / 2 < (3 : ℚ) / 4) = true := by norm_num
  have h14 : decide ((1 : ℚ) / 2 < (1 : ℚ) / 4) = false := by norm_num
  simp only [activityCalendar, h34, h14] at hc
  have h0 := congrArg (fun l => l.headI) hc
  simp [List.range_succ_eq_map] at h0

/-! ## Claim theorems for the service call plumbing -/

/-- C1 (refuting the claim on the code): `pmsasService` defines no
`useStreakFreeze` method, so the streak card's `handleUseFreeze` always ends
in the catch block's fallback message, for every backend behaviour and every
streak state — in particular for a user at risk holding a freeze token, whose
freeze is never applied and whose `freeze_available` is never decremented. -/
theorem handleUseFreeze_always_fails :
    pmsasServiceMethods.contains "useStreakFreeze" = false ∧
    (∀ backend current, handleUseFreeze backend current =
      .errorMessage "Failed to apply freeze") ∧
    handleUseFreeze (fun s => .ok ⟨s.current_streak, s.longest_streak,
        s.total_active_days, s.freeze_available - 1, false⟩) ⟨3, 5, 10, 1, true⟩ =
      .errorMessage "Failed to apply freeze" := by
  have hmem : pmsasServiceMethods.contains "useStreakFreeze" = false := by decide
  refine ⟨hmem, ?_, ?_⟩
  · intro backend current
    unfold handleUseFreeze
    rw [hmem]
    simp
  · unfold handleUseFreeze
    rw [hmem]
    simp

/-- C2 (refuting the claim on the code): the request built for the selected
period carries the whole options object as its `type` parameter — never the
period string itself — while `limit` is 10 only through the callee's default
parameter. -/
theorem getLeaderboard_period_dropped (period : String) (courseId : JSVal) :
    (fetchLeaderboardParams period courseId).lookup "type" =
      some (.obj [("period", .str period), ("limit", .num 10),
        ("course_id", courseId)]) ∧
    (fetchLeaderboardParams period courseId).lookup "limit" = some (.num 10) ∧
    JSVal.obj [("period", .str period), ("limit", .num 10), ("course_id", courseId)] ≠
      .str period := by
  refine ⟨rfl, rfl, ?_⟩
  intro h
  cases h

/-- Witness for C2: the daily period's request parameters, concretely. -/
theorem getLeaderboard_period_dropped_witness :
    (fetchLeaderboardParams "daily" .jsUndefined).lookup "type" =
      some (.obj [("period", .str "daily"), ("limit", .num 10),
        ("course_id", .jsUndefined)]) := by
  exact (getLeaderboard_period_dropped "daily" .jsUndefined).1

/-! ## Claim theorems for the PMSAS core (spec-modelled) -/

/-- After `recordActivity d`, the last active date is a day no earlier
than `d`. -/
theorem recordActivity_last_ge (d : Nat) (s : StreakState) :
    ∃ l, (recordActivity d s).last_active_date = some l ∧ d ≤ l := by
  unfold recordActivity
  split
  · exact ⟨d, rfl, Nat.le_refl d⟩
  · rename_i last heq
    split
    · rename_i hle
      exact ⟨last, heq, hle⟩
    · split
      · exact ⟨d, rfl, Nat.le_refl d⟩
      · dsimp only
        split
        · exact ⟨d, rfl, Nat.le_refl d⟩
        · exact ⟨d, rfl, Nat.le_refl d⟩

/-- `recordActivity` on a day not after the last active date is a no-op. -/
theorem recordActivity_noop (d : Nat) (t : StreakState) (l : Nat)
    (hl : t.last_active_date = some l) (hdl : d ≤ l) :
    recordActivity d t = t := by
  unfold recordActivity
  rw [hl]
  simp [hdl]

/-- C3: `recordActivity` is idempotent per user per calendar day — a second
call with a timestamp on the same calendar day changes nothing (in
particular, neither `current_streak` nor `total_active_days`) beyond the
first call's effect. -/
theorem recordActivity_idempotent (s : StreakState) (d : Nat) :
    (recordActivity d (recordActivity d s)).current_streak =
      (recordActivity d s).current_streak ∧
    (recordActivity d (recordActivity d s)).total_active_days =
      (recordActivity d s).total_active_days ∧
    recordActivity d (recordActivity d s) = recordActivity d s := by
  obtain ⟨l, hl, hdl⟩ := recordActivity_last_ge d s
  have h := recordActivity_noop d (recordActivity d s) l hl hdl
  exact ⟨by rw [h], by rw [h], h⟩

/-- One `recordActivity` step preserves `current_streak ≤ longest_streak`
and never decreases `longest_streak`. -/
theorem recordActivity_longest (d : Nat) (s : StreakState)
    (h : s.current_streak ≤ s.longest_streak) :
    (recordActivity d s).current_streak ≤ (recordActivity d s).longest_streak ∧
    s.longest_streak ≤ (recordActivity d s).longest_streak := by
  unfold recordActivity
  split
  · exact ⟨Nat.le_max_right _ _, Nat.le_max_left _ _⟩
  · split
    · exact ⟨h, Nat.le_refl _⟩
    · split
      · exact ⟨Nat.le_max_right _ _, Nat.le_max_left _ _⟩
      · dsimp only
        split
        · exact ⟨Nat.le_max_right _ _, Nat.le_max_left _ _⟩
        · exact ⟨Nat.le_max_right _ _, Nat.le_max_left _ _⟩

/-- `useStreakFreeze` never changes `current_streak` or `longest_streak`. -/
theorem useStreakFreeze_streaks (today : Nat) (s t : StreakState)
    (h : useStreakFreeze today s = .ok t) :
    t.current_streak = s.current_streak ∧ t.longest_streak = s.longest_streak := by
  unfold useStreakFreeze at h
  by_cases h0 : s.freeze_available = 0
  · rw [if_pos h0] at h
    cases h
  · rw [if_neg h0] at h
    by_cases hr : streakAtRisk today s = true
    · rw [if_pos hr] at h
      cases h
      exact ⟨rfl, rfl⟩
    · rw [if_neg hr] at h
      cases h
      exact ⟨rfl, rfl⟩

/-- `evaluateBadges` never touches the streak state. -/
theorem evaluateBadges_streak (catalog : List BadgeDefinition) :
    ∀ s : SysState, (evaluateBadges catalog s).streak = s.streak := by
  induction catalog with
  | nil => intro s; rfl
  | cons b rest ih =>
      intro s
      unfold evaluateBadges
      by_cases hc : b.badge_type ∈ s.earned
      · rw [if_pos hc]
        exact ih s
      · rw [if_neg hc]
        by_cases hcrit : b.criteria s.streak s.total_points = true
        · rw [if_pos hcrit]
          exact ih _
        · rw [if_neg hcrit]
          exact ih s

/-- One PMSAS operation preserves `current_streak ≤ longest_streak` and
never decreases `longest_streak`. -/
theorem applyOp_longest (catalog : List BadgeDefinition) (op : PMSASOp)
    (s : SysState) (h : s.streak.current_streak ≤ s.streak.longest_streak) :
    (applyOp catalog op s).streak.current_streak ≤
      (applyOp catalog op s).streak.longest_streak ∧
    s.streak.longest_streak ≤ (applyOp catalog op s).streak.longest_streak := by
  cases op with
  | record d => exact recordActivity_longest d s.streak h
  | freeze today =>
      dsimp only [applyOp]
      cases hf : useStreakFreeze today s.streak with
      | ok st =>
          obtain ⟨hc, hl⟩ := useStreakFreeze_streaks today s.streak st hf
          dsimp only
          rw [hc, hl]
          exact ⟨h, Nat.le_refl _⟩
      | error e => exact ⟨h, Nat.le_refl _⟩
  | evalBadges =>
      dsimp only [applyOp]
      rw [evaluateBadges_streak catalog s]
      exact ⟨h, Nat.le_refl _⟩

/-- C4: across every sequence of PMSAS operations, `longest_streak` never
decreases, stays at least `current_streak`, and therefore always equals
`max(longest_streak, current_streak)`. -/
theorem longest_streak_monotone (catalog : List BadgeDefinition)
    (ops : List PMSASOp) (s : SysState)
    (h : s.streak.current_streak ≤ s.streak.longest_streak) :
    (applyOps catalog ops s).streak.current_streak ≤
      (applyOps catalog ops s).streak.longest_streak ∧
    s.streak.longest_streak ≤ (applyOps catalog ops s).streak.longest_streak ∧
    (applyOps catalog ops s).streak.longest_streak =
      max (applyOps catalog ops s).streak.longest_streak
        (applyOps catalog ops s).streak.current_streak := by
  have main : ∀ (ops : List PMSASOp) (s : SysState),
      s.streak.current_streak ≤ s.streak.longest_streak →
      (applyOps catalog ops s).streak.current_streak ≤
        (applyOps catalog ops s).streak.longest_streak ∧
      s.streak.longest_streak ≤ (applyOps catalog ops s).streak.longest_streak := by
    intro ops
    induction ops with
    | nil => intro s hs; exact ⟨hs, Nat.le_refl _⟩
    | cons op rest ih =>
        intro s hs
        obtain ⟨h1, h2⟩ := applyOp_longest catalog op s hs
        obtain ⟨h3, h4⟩ := ih (applyOp catalog op s) h1
        exact ⟨h3, Nat.le_trans h2 h4⟩
  obtain ⟨h1, h2⟩ := main ops s h
  exact ⟨h1, h2, (Nat.max_eq_left h1).symm⟩

/-- Witness for C4: a concrete three-day run (activity on days 1 and 2, a
freeze use, a badge pass) from a fresh state. -/
theorem longest_streak_monotone_witness :
    (applyOps [] [.record 1, .record 2, .freeze 3, .evalBadges]
        ⟨StreakState.init 2, 0, []⟩).streak.current_streak ≤
      (applyOps [] [.record 1, .record 2, .freeze 3, .evalBadges]
        ⟨StreakState.init 2, 0, []⟩).streak.longest_streak ∧
    (⟨StreakState.init 2, 0, []⟩ : SysState).streak.longest_streak ≤
      (applyOps [] [.record 1, .record 2, .freeze 3, .evalBadges]
        ⟨StreakState.init 2, 0, []⟩).streak.longest_streak := by
  have h := longest_streak_monotone [] [.record 1, .record 2, .freeze 3, .evalBadges]
    ⟨StreakState.init 2, 0, []⟩ (Nat.le_refl 0)
  exact ⟨h.1, h.2.1⟩

/-- One `evaluateBadges` pass: it appends some freshly qualifying badges
(none already earned), awards each one's points exactly once, and keeps the
earned list duplicate-free. -/
theorem evaluateBadges_spec (catalog : List BadgeDefinition) :
    ∀ s : SysState, s.earned.Nodup →
      ∃ newly : List BadgeDefinition,
        (evaluateBadges catalog s).earned = s.earned ++ newly.map (·.badge_type) ∧
        (evaluateBadges catalog s).total_points =
          s.total_points + (newly.map (·.points_value)).sum ∧
        (evaluateBadges catalog s).earned.Nodup ∧
        (∀ b ∈ newly, b.badge_type ∉ s.earned) := by
  induction catalog with
  | nil =>
      intro s hs
      exact ⟨[], by simp [evaluateBadges], by simp [evaluateBadges], hs, by simp⟩
  | cons b rest ih =>
      intro s hs
      unfold evaluateBadges
      by_cases hc : b.badge_type ∈ s.earned
      · rw [if_pos hc]
        exact ih s hs
      · rw [if_neg hc]
        by_cases hcrit : b.criteria s.streak s.total_points = true
        · rw [if_pos hcrit]
          have hs' : (s.earned ++ [b.badge_type]).Nodup := by
            rw [List.nodup_append]
            exact ⟨hs, List.nodup_singleton _, by simpa using hc⟩
          obtain ⟨newly, h1, h2, h3, h4⟩ := ih
            { s with earned := s.earned ++ [b.badge_type],
                     total_points := s.total_points + b.points_value } hs'
          refine ⟨b :: newly, ?_, ?_, h3, ?_⟩
          · rw [h1]
            simp
          · rw [h2]
            simp only [List.map_cons, List.sum_cons]
            omega
          · intro b' hb'
            cases hb' with
            | head => exact hc
            | tail _ hmem =>
                have := h4 b' hmem
                simp only [List.mem_append] at this
                intro hcontra
                exact this (Or.inl hcontra)
        · rw [if_neg hcrit]
          exact ih s hs

/-- C5: however many times badge evaluation runs, the earned-badge list
stays duplicate-free — at most one `EarnedBadge` per badge type — and
`total_points` grows by each newly earned badge's `points_value` exactly
once. -/
theorem badge_award_at_most_once (catalog : List BadgeDefinition)
    (s : SysState) (k : Nat) (h : s.earned.Nodup) :
    ((evaluateBadges catalog)^[k] s).earned.Nodup ∧
    (∀ t, ((evaluateBadges catalog)^[k] s).earned.count t ≤ 1) ∧
    ∃ newly : List BadgeDefinition,
      ((evaluateBadges catalog)^[k] s).earned =
        s.earned ++ newly.map (·.badge_type) ∧
      (newly.map (·.badge_type)).Nodup ∧
      ((evaluateBadges catalog)^[k] s).total_points =
        s.total_points + (newly.map (·.points_value)).sum := by
  have main : ∀ k : Nat,
      ((evaluateBadges catalog)^[k] s).earned.Nodup ∧
      ∃ newly : List BadgeDefinition,
        ((evaluateBadges catalog)^[k] s).earned =
          s.earned ++ newly.map (·.badge_type) ∧
        ((evaluateBadges catalog)^[k] s).total_points =
          s.total_points + (newly.map (·.points_value)).sum := by
    intro k
    induction k with
    | zero => exact ⟨h, [], by simp, by simp⟩
    | succ n ihn =>
        obtain ⟨hnd, newly, h1, h2⟩ := ihn
        obtain ⟨fresh, g1, g2, g3, g4⟩ :=
          evaluateBadges_spec catalog ((evaluateBadges catalog)^[n] s) hnd
        rw [Function.iterate_succ_apply']
        refine ⟨g3, newly ++ fresh, ?_, ?_⟩
        · rw [g1, h1]
          simp
        · rw [g2, h2]
          simp only [List.map_append, List.sum_append]
          omega
  obtain ⟨hnd, newly, h1, h2⟩ := main k
  refine ⟨hnd, ?_, newly, h1, ?_, h2⟩
  · intro t
    exact List.nodup_iff_count_le_one.mp hnd t
  · have := hnd
    rw [h1, List.nodup_append] at this
    exact this.2.1

/-- Witness for C5: three evaluation passes over a one-badge catalog from a
fresh state award the badge once. -/
theorem badge_award_at_most_once_witness :
    ((evaluateBadges [⟨"first_day", 10, fun st _ => decide (0 < st.total_active_days)⟩])^[3]
        ⟨StreakState.init 2, 0, []⟩).earned.Nodup ∧
    ∀ t, ((evaluateBadges
        [⟨"first_day", 10, fun st _ => decide (0 < st.total_active_days)⟩])^[3]
        ⟨StreakState.init 2, 0, []⟩).earned.count t ≤ 1 := by
  have h := badge_award_at_most_once
    [⟨"first_day", 10, fun st _ => decide (0 < st.total_active_days)⟩]
    ⟨StreakState.init 2, 0, []⟩ 3 List.nodup_nil
  exact ⟨h.1, h.2.1⟩

end EduLearn
